import Mathlib

/-!
Verification of the easybuild_robot version-management layer and release
pipeline against its specification.

The Python sources are shallowly embedded as total Lean functions:

* `easybuild_bot/version_services/base.py` — `VersionService.increment_version`
* `easybuild_bot/version_services/flutter_version_service.py` — regex line edit
* `easybuild_bot/version_services/dotnet_maui_version_service.py` — XML tree edit
* `easybuild_bot/version_services/xamarin_version_service.py` — multi-file update
* `easybuild_bot/commands/implementations/prepare_release_callback.py` — pipeline

File contents are modelled as `String` / `List Char`; XML documents as a
rose tree mirroring `xml.etree.ElementTree` elements (tag, text, tail,
children).  Python exceptions are modelled by `Option` results, and the
file system by explicit inputs (the discovered file list of a working
copy, in file-system walk order) and outputs (the content written, or
`none` when the code path performs no write).
-/

namespace EasyBuild

/- ### Python string primitives -/

/-- Whitespace characters recognised by Python's `str.strip` / `int` and by
the regex class `\s` (ASCII range; the sources only handle ASCII files). -/
def isPyWs (c : Char) : Bool :=
  c == ' ' || c == '\t' || c == '\n' || c == '\r' || c == '\x0b' || c == '\x0c'

/-- Prepend a character to the first segment of of a split result. -/
def consHead (c : Char) : List (List Char) → List (List Char)
  | [] => [[c]]
  | h :: t => (c :: h) :: t

/-- Python `s.split(sep)` with an explicit one-character separator:
splits at every occurrence, keeping empty segments (`"".split('.') == ['']`). -/
def pySplit (sep : Char) : List Char → List (List Char)
  | [] => [[]]
  | c :: rest =>
    if c == sep then [] :: pySplit sep rest else consHead c (pySplit sep rest)

/-- Python `str.strip()` with no argument: drop leading and trailing whitespace. -/
def pyStripList (cs : List Char) : List Char :=
  ((cs.dropWhile isPyWs).reverse.dropWhile isPyWs).reverse

def digitVal (c : Char) : Nat := c.toNat - '0'.toNat

/-- Value of a run of decimal digits; a single underscore is allowed between
two digits (CPython's `int` literal rule: `int("1_0") == 10` while `int("1_")`
and `int("1__0")` raise). -/
def digitsVal : List Char → Nat → Option Nat
  | [], acc => some acc
  | '_' :: rest, acc =>
    match rest with
    | [] => none
    | c :: _ => if c.isDigit then digitsVal rest acc else none
  | c :: rest, acc =>
    if c.isDigit then digitsVal rest (10 * acc + digitVal c) else none

/-- Digit-run parser requiring a leading digit (no leading underscore). -/
def pyIntDigits (cs : List Char) : Option Nat :=
  match cs with
  | [] => none
  | c :: _ => if c.isDigit then digitsVal cs 0 else none

/-- Model of Python `int(str)`: strip whitespace, optional sign, decimal
digits (ASCII), `none` models `ValueError`. -/
def pyIntCore (cs : List Char) : Option Int :=
  match pyStripList cs with
  | '+' :: rest => (pyIntDigits rest).map (fun n => (n : Int))
  | '-' :: rest => (pyIntDigits rest).map (fun n => -(n : Int))
  | rest => (pyIntDigits rest).map (fun n => (n : Int))

/-- Python `int(s)` on a `String`, `none` for `ValueError`. -/
def pythonInt (s : String) : Option Int := pyIntCore s.data

/- ### VersionService.increment_version (version_services/base.py, lines 40-83) -/

/-- `lst[0]` for the (never empty) result of `split`. -/
def headPart : List (List Char) → List Char
  | [] => []
  | h :: _ => h

/-- Python `f"{major}.{minor}.{patch}"` with `int` fields. -/
def renderVersion (M m p : Int) : List Char :=
  (toString M).data ++ '.' :: (toString m).data ++ '.' :: (toString p).data

/-- The `parts` list of `increment_version`: strip everything after the first
`+`, split the remainder on `.`, and pad a 2-part version with `'0'`. -/
def paddedParts (version : List Char) : List (List Char) :=
  let parts0 := pySplit '.' (headPart (pySplit '+' version))
  if parts0.length == 2 then parts0 ++ [['0']] else parts0

/-- Core of `VersionService.increment_version`: on exactly 3 integer parts,
bump the part selected by `increment_type` (zeroing the lower ones; any
string other than `'major'`/`'minor'` selects `patch`); otherwise return
`version + ".1"` (this models both the explicit length check and the
`ValueError` fallback of the Python). -/
def incrementCore (version : List Char) (ity : List Char) : List Char :=
  match paddedParts version with
  | [p0, p1, p2] =>
    match pyIntCore p0, pyIntCore p1, pyIntCore p2 with
    | some M, some m, some p =>
      if ity == "major".data then renderVersion (M + 1) 0 0
      else if ity == "minor".data then renderVersion M (m + 1) 0
      else renderVersion M m (p + 1)
    | _, _, _ => version ++ ".1".data
  | _ => version ++ ".1".data

/-- `VersionService.increment_version(version, increment_type)`.  The Python
method is total: every branch returns a string, no branch raises. -/
def increment_version (version : String) (increment_type : String) : String :=
  ⟨incrementCore version.data increment_type.data⟩

/-- A version string "reduces to exactly 3 integer parts" in the sense of
`increment_version`: after stripping the first `+` suffix and padding a
2-part version with `'0'`, the dot-split has exactly 3 parts and each part
parses as a Python `int`. -/
def reducesTo3Ints (s : String) : Bool :=
  match paddedParts s.data with
  | [p0, p1, p2] =>
    (pyIntCore p0).isSome && (pyIntCore p1).isSome && (pyIntCore p2).isSome
  | _ => false

/- ### Helper lemmas about `pySplit` -/

theorem pySplit_ne_nil (sep : Char) (cs : List Char) : pySplit sep cs ≠ [] := by
  cases cs with
  | nil => simp [pySplit]
  | cons c rest =>
    simp only [pySplit]
    by_cases hc : c == sep
    · simp [hc]
    · simp only [hc, Bool.false_eq_true, if_false]
      cases pySplit sep rest <;> simp [consHead]

theorem pySplit_of_not_mem {sep : Char} {cs : List Char} (h : sep ∉ cs) :
    pySplit sep cs = [cs] := by
  induction cs with
  | nil => rfl
  | cons c rest ih =>
    have hc : (c == sep) = false := by
      simp only [beq_eq_false_iff_ne, ne_eq]
      intro hh
      exact h (hh ▸ List.mem_cons_self c rest)
    have hrest : sep ∉ rest := fun hh => h (List.mem_cons_of_mem c hh)
    simp [pySplit, hc, ih hrest, consHead]

theorem pySplit_append {sep : Char} {xs ys : List Char} (h : sep ∉ xs) :
    pySplit sep (xs ++ sep :: ys) = xs :: pySplit sep ys := by
  induction xs with
  | nil =>
    simp [pySplit]
  | cons c rest ih =>
    have hc : (c == sep) = false := by
      simp only [beq_eq_false_iff_ne, ne_eq]
      intro hh
      exact h (hh ▸ List.mem_cons_self c rest)
    have hrest : sep ∉ rest := fun hh => h (List.mem_cons_of_mem c hh)
    simp [pySplit, hc, ih hrest, consHead]

theorem string_mk_append (s t : String) :
    (⟨s.data ++ t.data⟩ : String) = s ++ t := by
  apply String.ext
  simp [String.data_append]

/- ### Claim C4 -/

/-- C4: for every version of shape `X.Y.Z` with integer parts (optionally
followed by a `+BUILD` suffix, which is stripped), `increment_version` with
`'patch'` increments only the patch; `'minor'` increments the minor and
zeroes the patch; `'major'` increments the major and zeroes minor and patch. -/
theorem c4_increment_xyz (s : String) (av bv cv suf : List Char) (M m p : Int)
    (hs : s.data = av ++ '.' :: (bv ++ '.' :: (cv ++ suf)))
    (ha : pyIntCore av = some M) (hb : pyIntCore bv = some m)
    (hc : pyIntCore cv = some p)
    (had : '.' ∉ av) (hap : '+' ∉ av)
    (hbd : '.' ∉ bv) (hbp : '+' ∉ bv)
    (hcd : '.' ∉ cv) (hcp : '+' ∉ cv)
    (hsuf : suf = [] ∨ ∃ r, suf = '+' :: r) :
    increment_version s "patch" = ⟨renderVersion M m (p + 1)⟩
    ∧ increment_version s "minor" = ⟨renderVersion M (m + 1) 0⟩
    ∧ increment_version s "major" = ⟨renderVersion (M + 1) 0 0⟩ := by
  have hnp : '+' ∉ av ++ '.' :: (bv ++ '.' :: cv) := by
    intro hmem
    rcases List.mem_append.mp hmem with h | h
    · exact hap h
    rcases List.mem_cons.mp h with h | h
    · exact absurd h (by decide)
    rcases List.mem_append.mp h with h | h
    · exact hbp h
    rcases List.mem_cons.mp h with h | h
    · exact absurd h (by decide)
    · exact hcp h
  have hbase : headPart (pySplit '+' s.data) = av ++ '.' :: (bv ++ '.' :: cv) := by
    rcases hsuf with h0 | ⟨r, hr⟩
    · rw [hs, h0, List.append_nil, pySplit_of_not_mem hnp]
      rfl
    · have hshape : s.data = (av ++ '.' :: (bv ++ '.' :: cv)) ++ '+' :: r := by
        rw [hs, hr]
        simp
      rw [hshape, pySplit_append hnp]
      rfl
  have hparts : paddedParts s.data = [av, bv, cv] := by
    rw [paddedParts, hbase, pySplit_append had, pySplit_append hbd,
      pySplit_of_not_mem hcd]
    rfl
  refine ⟨?_, ?_, ?_⟩ <;>
  · show (⟨incrementCore s.data _⟩ : String) = _
    rw [incrementCore, hparts]
    simp only [ha, hb, hc]
    rfl

/-- Witness for C4 at `1.2.3+4`. -/
theorem c4_increment_xyz_witness :
    increment_version "1.2.3+4" "patch" = "1.2.4"
    ∧ increment_version "1.2.3+4" "minor" = "1.3.0"
    ∧ increment_version "1.2.3+4" "major" = "2.0.0" := by
  have h := c4_increment_xyz "1.2.3+4" ['1'] ['2'] ['3'] ['+', '4'] 1 2 3
    rfl (by decide) (by decide) (by decide) (by decide) (by decide)
    (by decide) (by decide) (by decide) (by decide) (Or.inr ⟨['4'], rfl⟩)
  exact ⟨h.1.trans (by decide), h.2.1.trans (by decide), h.2.2.trans (by decide)⟩

/- ### Claim C5 -/

/-- C5: `increment_version` is total (the embedding is a total function and
every Python branch returns — see `incrementCore`); every input that does
not reduce to exactly 3 integer parts comes back as the original string with
`".1"` appended; and a 2-part version whose parts are integers is treated
exactly like the same version padded with a trailing `".0"` part. -/
theorem c5_increment_total_fallback (s s2 s3 t : String) (uv vv : List Char)
    (A B : Int)
    (hs : reducesTo3Ints s = false)
    (hs2 : s2.data = uv ++ '.' :: vv)
    (hs3 : s3.data = uv ++ '.' :: (vv ++ '.' :: ['0']))
    (hu : pyIntCore uv = some A) (hv : pyIntCore vv = some B)
    (hud : '.' ∉ uv) (hup : '+' ∉ uv)
    (hvd : '.' ∉ vv) (hvp : '+' ∉ vv) :
    increment_version s t = s ++ ".1"
    ∧ increment_version s2 t = increment_version s3 t := by
  constructor
  · show (⟨incrementCore s.data t.data⟩ : String) = s ++ ".1"
    rw [incrementCore]
    rw [reducesTo3Ints] at hs
    rcases hpp : paddedParts s.data with _ | ⟨p0, _ | ⟨p1, _ | ⟨p2, _ | ⟨p3, l⟩⟩⟩⟩
    · exact string_mk_append s ".1"
    · exact string_mk_append s ".1"
    · exact string_mk_append s ".1"
    · -- exactly three parts: some part must fail to parse
      rw [hpp] at hs
      rcases o0 : pyIntCore p0 with _ | M <;>
        rcases o1 : pyIntCore p1 with _ | m <;>
          rcases o2 : pyIntCore p2 with _ | p <;>
            simp only [o0, o1, o2] at hs ⊢ <;>
              first
                | exact string_mk_append s ".1"
                | simp at hs
    · exact string_mk_append s ".1"
  · -- padding: "u.v" behaves like "u.v.0"
    show (⟨incrementCore s2.data t.data⟩ : String) = ⟨incrementCore s3.data t.data⟩
    have hnp2 : '+' ∉ uv ++ '.' :: vv := by
      intro hmem
      rcases List.mem_append.mp hmem with h | h
      · exact hup h
      rcases List.mem_cons.mp h with h | h
      · exact absurd h (by decide)
      · exact hvp h
    have hnp3 : '+' ∉ uv ++ '.' :: (vv ++ '.' :: ['0']) := by
      intro hmem
      rcases List.mem_append.mp hmem with h | h
      · exact hup h
      rcases List.mem_cons.mp h with h | h
      · exact absurd h (by decide)
      rcases List.mem_append.mp h with h | h
      · exact hvp h
      rcases List.mem_cons.mp h with h | h
      · exact absurd h (by decide)
      · simp at h
    have hp2 : paddedParts s2.data = [uv, vv, ['0']] := by
      rw [paddedParts, hs2, pySplit_of_not_mem hnp2]
      simp only [headPart]
      rw [pySplit_append hud, pySplit_of_not_mem hvd]
      rfl
    have hp3 : paddedParts s3.data = [uv, vv, ['0']] := by
      rw [paddedParts, hs3, pySplit_of_not_mem hnp3]
      simp only [headPart]
      rw [pySplit_append hud, pySplit_append hvd,
        pySplit_of_not_mem (by decide : ('.' : Char) ∉ ['0'])]
      rfl
    rw [incrementCore, incrementCore, hp2, hp3]
    simp only [hu, hv, show pyIntCore ['0'] = some 0 from by decide]

/-- Witness for C5 at the spec's own examples `"v1"`, `"1.0.0.0.0"` and a
2-part version `"1.0"`. -/
theorem c5_increment_total_fallback_witness :
    increment_version "v1" "patch" = "v1.1"
    ∧ increment_version "1.0" "patch" = increment_version "1.0.0" "patch"
    ∧ increment_version "1.0.0.0.0" "patch" = "1.0.0.0.0.1" := by
  have h1 := c5_increment_total_fallback "v1" "1.0" "1.0.0" "patch"
    ['1'] ['0'] 1 0 (by decide) rfl rfl (by decide) (by decide)
    (by decide) (by decide) (by decide) (by decide)
  have h2 := c5_increment_total_fallback "1.0.0.0.0" "1.0" "1.0.0" "patch"
    ['1'] ['0'] 1 0 (by decide) rfl rfl (by decide) (by decide)
    (by decide) (by decide) (by decide) (by decide)
  exact ⟨h1.1, h1.2, h2.1⟩

end EasyBuild

namespace EasyBuild

/- ### FlutterVersionService (flutter_version_service.py, lines 35-67) -/

/-- Drop an expected literal from the front of a character list
(`none` when the literal does not match). -/
def dropPref : List Char → List Char → Option (List Char)
  | [], cs => some cs
  | _ :: _, [] => none
  | p :: ps, c :: cs => if p == c then dropPref ps cs else none

end EasyBuild

namespace EasyBuild

/- ### Claim C9 -/

end EasyBuild

namespace EasyBuild

/- ### XML element model (`xml.etree.ElementTree`) -/

mutual
/-- An `xml.etree.ElementTree` element: tag, `.text` (character data before
the first child), `.tail` (character data after the element's end tag) and
children.  Comments are not representable, mirroring the fact that
`ET.parse` drops them (the default parser ignores comment events and
coalesces the character data around a comment).  Attributes are not
modelled; the elements the services read and write carry none. -/
inductive XTree where
  | node (tag : String) (text : Option String) (tail : Option String)
      (children : XForest)
/-- The children of an element (a list of elements, kept as a mutual
inductive so that recursion over documents stays structural). -/
inductive XForest where
  | nil
  | cons (t : XTree) (f : XForest)
end

def XTree.tag : XTree → String
  | .node t _ _ _ => t

def XTree.text : XTree → Option String
  | .node _ tx _ _ => tx

def XTree.tail : XTree → Option String
  | .node _ _ tl _ => tl

def XTree.children : XTree → XForest
  | .node _ _ _ ch => ch

def XForest.isNil : XForest → Bool
  | .nil => true
  | .cons _ _ => false

/-- Python truthiness of an optional string (`None` and `""` are falsy). -/
def optTruthy : Option String → Bool
  | none => false
  | some s => !(s == "")

/-- Python `not s or not s.strip()` on an optional string: `None`, `""` and
whitespace-only strings qualify. -/
def optWsOrEmpty : Option String → Bool
  | none => true
  | some s => s.data.all isPyWs

/-- `elem.find(tag)`: first direct child carrying the tag. -/
def findChildIn (tag : String) : XForest → Option XTree
  | .nil => none
  | .cons c f => if c.tag == tag then some c else findChildIn tag f

def XTree.find (t : XTree) (tag : String) : Option XTree :=
  findChildIn tag t.children

mutual
/-- Proper descendants of an element in document order. -/
def descendTree : XTree → List XTree
  | .node _ _ _ ch => descendForest ch
def descendForest : XForest → List XTree
  | .nil => []
  | .cons c f => c :: descendTree c ++ descendForest f
end

/-- `root.findall('.//' + tag)`: every proper descendant with the tag, in
document order. -/
def findallTag (t : XTree) (tag : String) : List XTree :=
  (descendTree t).filter (fun e => e.tag == tag)

/-- Whether the document has at least one descendant element with the tag. -/
def hasField (t : XTree) (tag : String) : Bool :=
  !(findallTag t tag).isEmpty

/-- `.text` of the first descendant with the tag (`none` when absent). -/
def fieldText (t : XTree) (tag : String) : Option (Option String) :=
  (findallTag t tag).head?.map XTree.text

/-- `group.find(tag).text = v` when the child exists: replace the text of
the first direct child carrying the tag, keep everything else. -/
def setTextFirst (tag : String) (v : String) : XForest → XForest
  | .nil => .nil
  | .cons (XTree.node tg tx tl ch) f =>
    if tg == tag then .cons (XTree.node tg (some v) tl ch) f
    else .cons (XTree.node tg tx tl ch) (setTextFirst tag v f)

def setFirstChildText (tag : String) (v : String) : XTree → XTree
  | XTree.node tg tx tl ch => XTree.node tg tx tl (setTextFirst tag v ch)

mutual
/-- Apply `f` to every descendant element whose tag is `gtag` (a Python
loop over `root.findall('.//' + gtag)` mutating each element in place).
`f` is applied after the recursion into the children; this is equivalent to
Python's iteration over the snapshot list because every `f` used here only
rewrites the text of direct children whose tag differs from `gtag`. -/
def mapGroupsTree (gtag : String) (f : XTree → XTree) : XTree → XTree
  | XTree.node tg tx tl ch => XTree.node tg tx tl (mapGroupsForest gtag f ch)
def mapGroupsForest (gtag : String) (f : XTree → XTree) : XForest → XForest
  | .nil => .nil
  | .cons (XTree.node tg tx tl ch) rest =>
    .cons
      (if tg == gtag then f (XTree.node tg tx tl (mapGroupsForest gtag f ch))
       else XTree.node tg tx tl (mapGroupsForest gtag f ch))
      (mapGroupsForest gtag f rest)
end

def indentSpaces : Nat → List Char
  | 0 => []
  | n + 1 => ' ' :: ' ' :: indentSpaces n

/-- `indent = "\n" + "  " * level` of `_indent_xml`. -/
def indentStr (level : Nat) : String := ⟨'\n' :: indentSpaces level⟩

/-- After the child loop of `_indent_xml`, the last child's tail is reset to
the parent's indent when empty or whitespace. -/
def fixLastTail (ind : String) : XForest → XForest
  | .nil => .nil
  | .cons c rest =>
    match rest with
    | .nil =>
      match c with
      | XTree.node tg tx tl ch =>
        if optWsOrEmpty tl then .cons (XTree.node tg tx (some ind) ch) .nil
        else .cons (XTree.node tg tx tl ch) .nil
    | .cons _ _ => .cons c (fixLastTail ind rest)

mutual
/-- `DotNetMauiVersionService._indent_xml(elem, level)` (lines 95-109):
rewrite whitespace-only `text`/`tail` fields to two-space indentation. -/
def indentXml (level : Nat) : XTree → XTree
  | XTree.node tg tx tl .nil =>
    if level != 0 && optWsOrEmpty tl then
      XTree.node tg tx (some (indentStr level)) .nil
    else XTree.node tg tx tl .nil
  | XTree.node tg tx tl (.cons c cs) =>
    XTree.node tg
      (if optWsOrEmpty tx then some (indentStr level ++ "  ") else tx)
      (if optWsOrEmpty tl then some (indentStr level) else tl)
      (fixLastTail (indentStr level) (indentForest (level + 1) (.cons c cs)))
def indentForest (level : Nat) : XForest → XForest
  | .nil => .nil
  | .cons c cs => .cons (indentXml level c) (indentForest level cs)
end

def escList : List Char → List Char
  | [] => []
  | c :: cs =>
    if c == '&' then '&' :: 'a' :: 'm' :: 'p' :: ';' :: escList cs
    else if c == '<' then '&' :: 'l' :: 't' :: ';' :: escList cs
    else if c == '>' then '&' :: 'g' :: 't' :: ';' :: escList cs
    else c :: escList cs

/-- Character-data escaping performed by `ElementTree.write`. -/
def escapeCdata (s : String) : String := ⟨escList s.data⟩

mutual
/-- Serialization of one element as done by `ElementTree.write` (default
`short_empty_elements`): `<tag />` for an element with falsy text and no
children, else `<tag>text children</tag>`, followed by the tail. -/
def serializeX : XTree → String
  | XTree.node tg tx tl ch =>
    (if optTruthy tx || !ch.isNil then
      "<" ++ tg ++ ">" ++ (match tx with | some s => escapeCdata s | none => "")
        ++ serializeForest ch ++ "</" ++ tg ++ ">"
     else "<" ++ tg ++ " />")
    ++ (match tl with
        | some s => if s == "" then "" else escapeCdata s
        | none => "")
def serializeForest : XForest → String
  | .nil => ""
  | .cons c cs => serializeX c ++ serializeForest cs
end

/-- The declaration `ElementTree.write` emits for `encoding='utf-8'` with
`xml_declaration=True`. -/
def xmlDeclaration : String := "<?xml version='1.0' encoding='utf-8'?>\n"

end EasyBuild

namespace EasyBuild

/- ### DotNetMauiVersionService (dotnet_maui_version_service.py, lines 37-93) -/

/-- First-pass flag `display_version_updated`: true iff some descendant
`PropertyGroup` has an `ApplicationDisplayVersion` child (in which case the
loop also set that child's text). -/
def mauiDisplayFound (root : XTree) : Bool :=
  (findallTag root "PropertyGroup").any
    (fun g => (g.find "ApplicationDisplayVersion").isSome)

/-- `current_app_version` after the first pass: the loop overwrites the
variable for every `PropertyGroup` whose `ApplicationVersion` child has
truthy text (so the last such group wins); text that does not parse as an
`int` yields the default `1` (the `ValueError` handler). -/
def mauiCurrentAppVersion (root : XTree) : Option Int :=
  (findallTag root "PropertyGroup").foldl
    (fun acc g =>
      match g.find "ApplicationVersion" with
      | some e =>
        if optTruthy e.text then
          some ((pyIntCore (pyStripList ((e.text.getD "").data))).getD 1)
        else acc
      | none => acc)
    none

/-- `DotNetMauiVersionService.update_version` on the parsed descriptor:
first pass sets every `PropertyGroup`'s first `ApplicationDisplayVersion`
child to the requested value and reads the current `ApplicationVersion`;
the second pass (skipped when no truthy counter was seen) sets every
`PropertyGroup`'s first `ApplicationVersion` child to `current + 1`.
When no `ApplicationDisplayVersion` exists anywhere the method returns
failure before `tree.write`, so nothing reaches the disk (`none`);
otherwise the indented tree is written. -/
def mauiUpdateVersionTree (root : XTree) (v : String) : Bool × Option XTree :=
  let t1 := mapGroupsTree "PropertyGroup"
    (setFirstChildText "ApplicationDisplayVersion" v) root
  let t2 := match mauiCurrentAppVersion root with
    | some n => mapGroupsTree "PropertyGroup"
        (setFirstChildText "ApplicationVersion" (toString (n + 1))) t1
    | none => t1
  if mauiDisplayFound root then (true, some (indentXml 0 t2)) else (false, none)

/-- The bytes `update_version` writes: the XML declaration followed by the
re-serialized tree (`tree.write(path, encoding='utf-8',
xml_declaration=True)`), or `none` when the method failed before writing. -/
def mauiWrittenContent (root : XTree) (v : String) : Bool × Option String :=
  let r := mauiUpdateVersionTree root v
  (r.1, r.2.map (fun t => xmlDeclaration ++ serializeX t))

/-- Content of the descriptor file after the call: the written bytes, or the
original raw content when no write happened. -/
def mauiDiskAfter (raw : String) (written : Option String) : String :=
  written.getD raw

/- ### Substring test (for the C10 statement) -/

def listHasPref : List Char → List Char → Bool
  | [], _ => true
  | _ :: _, [] => false
  | p :: ps, c :: cs => p == c && listHasPref ps cs

def containsSub (needle : List Char) : List Char → Bool
  | [] => needle.isEmpty
  | c :: rest => listHasPref needle (c :: rest) || containsSub needle rest

/-- Python `needle in hay` on strings. -/
def strContains (hay needle : String) : Bool := containsSub needle.data hay.data

end EasyBuild

namespace EasyBuild

/- ### Claims C3, C7, C10 -/

/-- A minimal MAUI descriptor: a `Project` root whose single
`PropertyGroup` carries `ApplicationDisplayVersion` and, optionally, an
`ApplicationVersion` build counter. -/
def mauiProj (disp : String) (counter : Option String) : XTree :=
  XTree.node "Project" (some "\n  ") none
    (.cons
      (XTree.node "PropertyGroup" (some "\n    ") (some "\n")
        (.cons (XTree.node "ApplicationDisplayVersion" (some disp) (some "\n    ") .nil)
          (match counter with
           | some cText =>
             .cons (XTree.node "ApplicationVersion" (some cText) (some "\n  ") .nil) .nil
           | none => .nil)))
      .nil)

/-- C3 counterexample: a successful `update_version` call on a descriptor
whose `ApplicationVersion` tag is absent.  The claim says the counter's
pre-call value defaults to 1 when the tag is absent, so the counter would
equal 2 afterwards; the code instead skips the second pass entirely, and
the written descriptor has no `ApplicationVersion` element at all. -/
theorem c3_maui_counter_counterexample :
    (mauiUpdateVersionTree (mauiProj "1.2.0" none) "1.2.1").1 = true
    ∧ (mauiUpdateVersionTree (mauiProj "1.2.0" none) "1.2.1").2.map
        (fun tr => hasField tr "ApplicationVersion") = some false
    ∧ (mauiUpdateVersionTree (mauiProj "1.2.0" none) "1.2.1").2.map
        (fun tr => fieldText tr "ApplicationDisplayVersion")
      = some (some (some "1.2.1")) := by
  refine ⟨rfl, rfl, rfl⟩

/-- C3 (amended): after a successful `DotNetMauiVersionService.update_version`
call the display field equals the requested value, and the `ApplicationVersion`
build counter is incremented by one from its pre-call value — with the
default pre-call value 1 applying only when the tag is present with
non-empty text that does not parse as an integer.  When the tag is absent
it stays absent (no counter is written), and when it is present with empty
text it is left unchanged. -/
theorem c3_maui_counter_amended (disp t v : String) (ht : t ≠ "") :
    ((mauiUpdateVersionTree (mauiProj disp none) v).1 = true
      ∧ (mauiUpdateVersionTree (mauiProj disp none) v).2.map
          (fun tr => hasField tr "ApplicationVersion") = some false
      ∧ (mauiUpdateVersionTree (mauiProj disp none) v).2.map
          (fun tr => fieldText tr "ApplicationDisplayVersion")
        = some (some (some v)))
    ∧ ((mauiUpdateVersionTree (mauiProj disp (some t)) v).1 = true
      ∧ (mauiUpdateVersionTree (mauiProj disp (some t)) v).2.map
          (fun tr => fieldText tr "ApplicationVersion")
        = some (some (some (toString ((pyIntCore (pyStripList t.data)).getD 1 + 1))))
      ∧ (mauiUpdateVersionTree (mauiProj disp (some t)) v).2.map
          (fun tr => fieldText tr "ApplicationDisplayVersion")
        = some (some (some v)))
    ∧ ((mauiUpdateVersionTree (mauiProj disp (some "")) v).1 = true
      ∧ (mauiUpdateVersionTree (mauiProj disp (some "")) v).2.map
          (fun tr => fieldText tr "ApplicationVersion")
        = some (some (some ""))) := by
  have htb : (t == "") = false := beq_eq_false_iff_ne.mpr ht
  refine ⟨⟨?_, ?_, ?_⟩, ⟨?_, ?_, ?_⟩, ⟨?_, ?_⟩⟩ <;>
    simp [mauiUpdateVersionTree, mauiProj, mauiDisplayFound, mauiCurrentAppVersion,
      findallTag, descendTree, descendForest, XTree.tag, XTree.text, XTree.find,
      XTree.children, findChildIn, optTruthy, htb, mapGroupsTree, mapGroupsForest,
      setFirstChildText, setTextFirst, indentXml, indentForest, fixLastTail,
      optWsOrEmpty, hasField, fieldText, indentStr, indentSpaces, isPyWs]

/-- Witness for the amended C3 at the spec's example (counter 7 → 8 while
the display version goes 1.2.0 → 1.2.1), plus the absent- and empty-counter
cases. -/
theorem c3_maui_counter_amended_witness :
    ((mauiUpdateVersionTree (mauiProj "1.2.0" (some "7")) "1.2.1").1 = true
      ∧ (mauiUpdateVersionTree (mauiProj "1.2.0" (some "7")) "1.2.1").2.map
          (fun tr => fieldText tr "ApplicationVersion") = some (some (some "8")))
    ∧ (mauiUpdateVersionTree (mauiProj "1.2.0" none) "1.2.1").2.map
        (fun tr => hasField tr "ApplicationVersion") = some false := by
  have h := c3_maui_counter_amended "1.2.0" "7" "1.2.1" (by decide)
  refine ⟨⟨h.2.1.1, h.2.1.2.1.trans (by decide)⟩, h.1.2.1⟩

/-- C7: when the `ApplicationDisplayVersion` tag is absent from the
descriptor, `DotNetMauiVersionService.update_version` fails and performs no
write (the mutated tree is only in memory; `tree.write` is never reached),
so the bytes on disk are unchanged. -/
theorem c7_maui_atomic_on_missing_display (root : XTree) (raw v : String)
    (h : mauiDisplayFound root = false) :
    mauiWrittenContent root v = (false, none)
    ∧ mauiDiskAfter raw (mauiWrittenContent root v).2 = raw := by
  have hr : mauiUpdateVersionTree root v = (false, none) := by
    rw [mauiUpdateVersionTree]
    simp [h]
  constructor
  · rw [mauiWrittenContent, hr]
    rfl
  · rw [mauiWrittenContent, hr]
    rfl

/-- Witness for C7: a descriptor holding only an `ApplicationVersion`
counter fails and leaves the raw bytes untouched. -/
theorem c7_maui_atomic_on_missing_display_witness :
    mauiWrittenContent
      (XTree.node "Project" (some "\n  ") none
        (.cons (XTree.node "PropertyGroup" (some "\n    ") (some "\n")
          (.cons (XTree.node "ApplicationVersion" (some "7") (some "\n  ") .nil) .nil))
          .nil)) "2.0.0" = (false, none)
    ∧ mauiDiskAfter "<Project>original</Project>"
        (mauiWrittenContent
          (XTree.node "Project" (some "\n  ") none
            (.cons (XTree.node "PropertyGroup" (some "\n    ") (some "\n")
              (.cons (XTree.node "ApplicationVersion" (some "7") (some "\n  ") .nil) .nil))
              .nil)) "2.0.0").2 = "<Project>original</Project>" :=
  c7_maui_atomic_on_missing_display _ _ _ rfl

/- ### Claim C10 -/

/-- A well-formed MAUI descriptor containing an XML comment. -/
def sampleMauiRaw : String :=
  "<Project>\n  <!-- important comment -->\n  <PropertyGroup>\n    <ApplicationDisplayVersion>1.0.0</ApplicationDisplayVersion>\n  </PropertyGroup>\n</Project>"

/-- `ET.parse` of `sampleMauiRaw`: the comment is dropped by the default
parser and the character data before and after it coalesces into the root's
`.text`. -/
def sampleMauiTree : XTree :=
  XTree.node "Project" (some "\n  \n  ") none
    (.cons
      (XTree.node "PropertyGroup" (some "\n    ") (some "\n")
        (.cons (XTree.node "ApplicationDisplayVersion" (some "1.0.0") (some "\n  ") .nil)
          .nil))
      .nil)

/-- C10: a successful MAUI update re-serializes the whole descriptor
(`_indent_xml` plus `tree.write` with an XML declaration), so content
outside the version fields is not preserved: on `sampleMauiRaw` the update
succeeds, the written bytes no longer contain the XML comment, and they
gained an XML declaration the original never had — two differences outside
the version fields — while the display version was updated. -/
theorem c10_maui_rewrites_whole_file :
    (mauiWrittenContent sampleMauiTree "1.0.1").1 = true
    ∧ strContains sampleMauiRaw "important comment" = true
    ∧ (mauiWrittenContent sampleMauiTree "1.0.1").2.map
        (fun o => strContains o "important comment") = some false
    ∧ strContains sampleMauiRaw "<?xml" = false
    ∧ (mauiWrittenContent sampleMauiTree "1.0.1").2.map
        (fun o => strContains o "<?xml") = some true
    ∧ (mauiWrittenContent sampleMauiTree "1.0.1").2.map
        (fun o => strContains o "<ApplicationDisplayVersion>1.0.1</ApplicationDisplayVersion>")
      = some true := by
  refine ⟨rfl, by decide, by decide, by decide, by decide, by decide⟩

end EasyBuild

namespace EasyBuild

/- ### XamarinVersionService (xamarin_version_service.py) -/

inductive Platform where
  | android
  | ios
deriving DecidableEq

def platformStr : Platform → String
  | .android => "android"
  | .ios => "ios"

/-- `_get_platform_type` (lines 70-85): lower-case the file name and test
for the platform markers as substrings, Android before iOS. -/
def getPlatformType (filename : String) : Option Platform :=
  let lower := filename.data.map Char.toLower
  if containsSub ".android.csproj".data lower
      || containsSub ".droid.csproj".data lower then some .android
  else if containsSub ".ios.csproj".data lower then some .ios
  else none

/-- The five platform-file suffixes of `_find_platform_projects` (lines 33-39). -/
def platformSuffixes : List String :=
  [".Android.csproj", ".iOS.csproj", ".UWP.csproj", ".WinPhone.csproj", ".Droid.csproj"]

def endsWithList (suf cs : List Char) : Bool :=
  listHasPref suf.reverse cs.reverse

/-- A file of the working copy as the walk discovers it: its (relative)
name, its parsed XML (`none` models an `ET.parse` failure) and its raw
bytes on disk. -/
structure XamarinFile where
  name : String
  tree : Option XTree
  raw : String

/-- `_find_platform_projects` (lines 18-68): keep the files, in file-system
walk order, whose name ends with one of the platform suffixes. -/
def xamarinDiscover (walk : List XamarinFile) : List XamarinFile :=
  walk.filter (fun f => platformSuffixes.any (fun suf => endsWithList suf.data f.name.data))

/-- Namespace extraction (lines 113-118 and 207-212): when the root tag
starts with `'\x7b'` the namespace is `tag[tag.find('\x7b'):tag.find('\x7d')+1]`
(which is the empty slice when no closing brace exists, since `find`
returns -1). -/
def takeThroughBrace : List Char → Option (List Char)
  | [] => none
  | c :: cs =>
    if c == '\x7d' then some [c]
    else (takeThroughBrace cs).map (fun r => c :: r)

def extractNs (tag : String) : String :=
  match tag.data with
  | '\x7b' :: rest =>
    (match takeThroughBrace rest with
     | some r => ⟨'\x7b' :: r⟩
     | none => "")
  | _ => ""

/-- Namespace-tolerant `find`: try the unqualified tag, then (when the
document has a default namespace) the qualified tag. -/
def findChildNs (t : XTree) (ns tag : String) : Option XTree :=
  match t.find tag with
  | some e => some e
  | none => if ns != "" then t.find (ns ++ tag) else none

/-- The `PropertyGroup` list scanned by both services: the unqualified
XPath `.//PropertyGroup` first, then the namespace-qualified one (each in
document order), as in `property_group_paths`. -/
def xamarinGroups (root : XTree) : List XTree :=
  findallTag root "PropertyGroup"
    ++ (if extractNs root.tag != "" then
          findallTag root (extractNs root.tag ++ "PropertyGroup")
        else [])

/-- `str.strip()` of an optional string (`None` behaves as `""`, which the
callers have excluded via truthiness). -/
def pyStripStr (o : Option String) : String :=
  ⟨pyStripList (o.getD "").data⟩

/-- Per-`PropertyGroup` version lookup of `_get_version_from_csproj`
(lines 120-175): Android reads `ApplicationVersion`; iOS reads
`ApplicationVersion` and falls back to `CFBundleShortVersionString` within
the same group; an unrecognised platform finds nothing. -/
def versionFromGroups (platform : Option Platform) (ns : String) :
    List XTree → Option String
  | [] => none
  | g :: rest =>
    match platform with
    | some .android =>
      match findChildNs g ns "ApplicationVersion" with
      | some e =>
        if optTruthy e.text then some (pyStripStr e.text)
        else versionFromGroups platform ns rest
      | none => versionFromGroups platform ns rest
    | some .ios =>
      (match findChildNs g ns "ApplicationVersion" with
       | some e =>
         if optTruthy e.text then some (pyStripStr e.text)
         else
           match findChildNs g ns "CFBundleShortVersionString" with
           | some e2 =>
             if optTruthy e2.text then some (pyStripStr e2.text)
             else versionFromGroups platform ns rest
           | none => versionFromGroups platform ns rest
       | none =>
         match findChildNs g ns "CFBundleShortVersionString" with
         | some e2 =>
           if optTruthy e2.text then some (pyStripStr e2.text)
           else versionFromGroups platform ns rest
         | none => versionFromGroups platform ns rest)
    | none => versionFromGroups platform ns rest

/-- `_get_version_from_csproj` on one file (`none` both for a parse failure
and for "no version tag found"). -/
def getVersionFromCsproj (filename : String) (tree : Option XTree) : Option String :=
  match tree with
  | none => none
  | some root =>
    versionFromGroups (getPlatformType filename) (extractNs root.tag)
      (xamarinGroups root)

/-- The `for platform_file in platform_projects` loop of
`get_current_version` (lines 396-412): the first file whose version lookup
returns a truthy string wins (an empty-string version is falsy and the
loop continues). -/
def firstTruthyVersion : List XamarinFile → Option String
  | [] => none
  | f :: rest =>
    match getVersionFromCsproj f.name f.tree with
    | some s => if s == "" then firstTruthyVersion rest else some s
    | none => firstTruthyVersion rest

/-- `XamarinVersionService.get_current_version` (lines 348-436) on the
walk of the working copy. -/
def xamarinGetCurrentVersion (walk : List XamarinFile) : Option String :=
  let files := xamarinDiscover walk
  if files.isEmpty then none else firstTruthyVersion files

end EasyBuild

namespace EasyBuild

/- ### Xamarin write path (`_update_version_in_csproj`, lines 180-346) -/

/-- Match the regex `(<T>)[^<]+(</T>)` at the head of the input: the open
tag literal, a non-empty run of non-`'<'` characters (greedy matching is
exact here because the close tag starts with `'<'`), then the close tag.
Returns the remainder after the whole match. -/
def tagMatchAt (opn cls cs : List Char) : Option (List Char) :=
  match dropPref opn cs with
  | none => none
  | some r1 =>
    let body := r1.takeWhile (fun c => c != '<')
    if body.isEmpty then none
    else dropPref cls (r1.drop body.length)

/-- `re.sub(r'(<T>)[^<]+(</T>)', rf'\g<1>{new}\g<2>', content)`: replace
every (left-to-right, non-overlapping) occurrence.  The fuel argument, set
to the content length, only serves structural termination: a successful
match always consumes at least the open tag. -/
def replTagFuel (opn cls new : List Char) : Nat → List Char → List Char
  | 0, cs => cs
  | _ + 1, [] => []
  | fuel + 1, c :: rest =>
    match tagMatchAt opn cls (c :: rest) with
    | some rem => opn ++ new ++ cls ++ replTagFuel opn cls new fuel rem
    | none => c :: replTagFuel opn cls new fuel rest

def replAllTag (tag : String) (new : List Char) (cs : List Char) : List Char :=
  replTagFuel ('<' :: tag.data ++ ['>']) ('<' :: '/' :: tag.data ++ ['>'])
    new cs.length cs

/-- Deduplicating append used for `updated_tags`. -/
def addTag (tags : List String) (t : String) : List String :=
  if tags.contains t then tags else tags ++ [t]

/-- One Android iteration of the tree pass (lines 228-256): an
`ApplicationVersion` child marks the file updatable; an
`AndroidVersionCode` child does so only when the requested version has at
least 3 dot-parts whose first three parse as `int` (otherwise the
`ValueError` is caught and only a warning is logged). -/
def stepAndroid (ns v : String) (acc : Bool × List String) (g : XTree) :
    Bool × List String :=
  let acc1 := match findChildNs g ns "ApplicationVersion" with
    | some _ => (true, addTag acc.2 "ApplicationVersion")
    | none => acc
  match findChildNs g ns "AndroidVersionCode" with
  | some _ =>
    match pySplit '.' v.data with
    | p0 :: p1 :: p2 :: _ =>
      match pyIntCore p0, pyIntCore p1, pyIntCore p2 with
      | some _, some _, some _ => (true, addTag acc1.2 "AndroidVersionCode")
      | _, _, _ => acc1
    | _ => acc1
  | none => acc1

def androidTreePassAux (ns v : String) (acc : Bool × List String) :
    List XTree → Bool × List String
  | [] => acc
  | g :: rest => androidTreePassAux ns v (stepAndroid ns v acc g) rest

/-- `version_updated` and `updated_tags` after the Android tree pass. -/
def androidTreePass (ns v : String) (groups : List XTree) : Bool × List String :=
  androidTreePassAux ns v (false, []) groups

/-- One iOS iteration of the tree pass (lines 258-290): `ApplicationVersion`,
`CFBundleShortVersionString` and `CFBundleVersion` each mark the file
updatable when present. -/
def stepIos (ns : String) (acc : Bool × List String) (g : XTree) :
    Bool × List String :=
  let acc1 := match findChildNs g ns "ApplicationVersion" with
    | some _ => (true, addTag acc.2 "ApplicationVersion")
    | none => acc
  let acc2 := match findChildNs g ns "CFBundleShortVersionString" with
    | some _ => (true, addTag acc1.2 "CFBundleShortVersionString")
    | none => acc1
  match findChildNs g ns "CFBundleVersion" with
  | some _ => (true, addTag acc2.2 "CFBundleVersion")
  | none => acc2

def iosTreePassAux (ns : String) (acc : Bool × List String) :
    List XTree → Bool × List String
  | [] => acc
  | g :: rest => iosTreePassAux ns (stepIos ns acc g) rest

def iosTreePass (ns : String) (groups : List XTree) : Bool × List String :=
  iosTreePassAux ns (false, []) groups

def joinCommaSpace : List String → String
  | [] => ""
  | [s] => s
  | s :: rest => s ++ ", " ++ joinCommaSpace rest

/-- Outcome of `_update_version_in_csproj` on one file: the success flag,
the returned message, and the bytes written to the file (`none` when the
method fails before its write). -/
structure FileUpdateResult where
  success : Bool
  message : String
  written : Option String

/-- `_update_version_in_csproj(csproj_path, new_version)`.  The raw-text
write path substitutes the version into the file bytes with the
tag-anchored regexes.  For Android the derived `AndroidVersionCode` is
computed from the first three dot-parts when there are at least three —
note that in this text path the `int()` calls are not guarded, so a
non-integer part raises `ValueError`, which the enclosing `except` turns
into a failure with nothing written (the exception text in the message is
abstracted away; same for the parse-failure message). -/
def xamarinUpdateFile (filename : String) (tree : Option XTree) (raw : String)
    (v : String) : FileUpdateResult :=
  match tree with
  | none =>
    ⟨false, "Ошибка при обновлении версии в " ++ filename, none⟩
  | some root =>
    match getPlatformType filename with
    | none =>
      ⟨false, "Файл " ++ filename ++ " не является Android или iOS проектом", none⟩
    | some platform =>
      let ns := extractNs root.tag
      let groups := xamarinGroups root
      match platform with
      | .android =>
        if !(androidTreePass ns v groups).1 then
          ⟨false, "Не найдены теги версии для платформы android в файле " ++ filename,
            none⟩
        else
          let c1 := replAllTag "ApplicationVersion" v.data raw.data
          (match pySplit '.' v.data with
           | p0 :: p1 :: p2 :: _ =>
             (match pyIntCore p0, pyIntCore p1, pyIntCore p2 with
              | some i0, some i1, some i2 =>
                ⟨true,
                 "Версия обновлена на " ++ v ++ " (теги: "
                   ++ joinCommaSpace (androidTreePass ns v groups).2 ++ ")",
                 some ⟨replAllTag "AndroidVersionCode"
                   (toString (i0 * 10000 + i1 * 100 + i2)).data c1⟩⟩
              | _, _, _ =>
                ⟨false, "Ошибка при обновлении версии в " ++ filename, none⟩)
           | _ =>
             ⟨true,
              "Версия обновлена на " ++ v ++ " (теги: "
                ++ joinCommaSpace (androidTreePass ns v groups).2 ++ ")",
              some ⟨c1⟩⟩)
      | .ios =>
        if !(iosTreePass ns groups).1 then
          ⟨false, "Не найдены теги версии для платформы ios в файле " ++ filename,
            none⟩
        else
          ⟨true,
           "Версия обновлена на " ++ v ++ " (теги: "
             ++ joinCommaSpace (iosTreePass ns groups).2 ++ ")",
           some ⟨replAllTag "CFBundleShortVersionString" v.data
             (replAllTag "CFBundleVersion" v.data
               (replAllTag "ApplicationVersion" v.data raw.data))⟩⟩

end EasyBuild

namespace EasyBuild

/- ### Xamarin update aggregation (`update_version`, lines 544-646) -/

/-- `'\n  • '.join(lst)`. -/
def joinBullets : List String → String
  | [] => ""
  | [s] => s
  | s :: rest => s ++ "\n  • " ++ joinBullets rest

/-- The per-file loop (lines 582-599): files that are neither Android nor
iOS are skipped; every other file gets an independent
`_update_version_in_csproj` call, and the updated / failed names and
failure messages are collected in discovery order. -/
def xamarinProcess (v : String) :
    List XamarinFile → List String × List String × List String
  | [] => ([], [], [])
  | f :: rest =>
    match getPlatformType f.name with
    | none => xamarinProcess v rest
    | some _ =>
      let fr := xamarinUpdateFile f.name f.tree f.raw v
      let r := xamarinProcess v rest
      if fr.success then (f.name :: r.1, r.2.1, r.2.2)
      else (r.1, f.name :: r.2.1, (f.name ++ ": " ++ fr.message) :: r.2.2)

def xamarinNoProjectsMsg : String :=
  "Не найдено платформенных проектов (*.Android.csproj или *.iOS.csproj) в проекте.\nУбедитесь, что в проекте есть файлы:\n  - Для Android: *.Android.csproj или *.Droid.csproj\n  - Для iOS: *.iOS.csproj"

def xamarinTagsHint : String :=
  "Убедитесь, что в платформенных файлах есть теги:\n  - Для Android: <ApplicationVersion>X.Y.Z</ApplicationVersion> и <AndroidVersionCode>N</AndroidVersionCode>\n  - Для iOS: <ApplicationVersion>X.Y.Z</ApplicationVersion> и <CFBundleVersion>X.Y.Z</CFBundleVersion>"

/-- `XamarinVersionService.update_version`: no platform files at all is a
failure; otherwise each discovered Android/iOS file is attempted
independently and the aggregate succeeds iff the updated list is
non-empty (fully or partially); the message enumerates the per-file
outcomes. -/
def xamarinUpdateVersion (walk : List XamarinFile) (v : String) : Bool × String :=
  let files := xamarinDiscover walk
  if files.isEmpty then (false, xamarinNoProjectsMsg)
  else
    let androidFiles := files.filter (fun f => getPlatformType f.name == some .android)
    let iosFiles := files.filter (fun f => getPlatformType f.name == some .ios)
    let r := xamarinProcess v files
    match r.1, r.2.1 with
    | u0 :: urest, [] =>
      (true, "✅ Версия успешно обновлена на " ++ v ++ "\n\nПлатформы: "
        ++ joinCommaSpace
          ((if !androidFiles.isEmpty then
              ["Android (" ++ toString androidFiles.length ++ ")"] else [])
            ++ (if !iosFiles.isEmpty then
              ["iOS (" ++ toString iosFiles.length ++ ")"] else []))
        ++ "\n\nОбновлённые файлы:\n  • " ++ joinBullets (u0 :: urest))
    | u0 :: urest, _ :: _ =>
      (true, "⚠️ Версия частично обновлена на " ++ v ++ "\n\nУспешно:\n  • "
        ++ joinBullets (u0 :: urest) ++ "\n\nОшибки:\n  • " ++ joinBullets r.2.2)
    | [], _ =>
      (false, "❌ Не удалось обновить версию ни в одном файле\n\n"
        ++ (let missing :=
              (if !androidFiles.isEmpty then [] else ["Android (*.Android.csproj)"])
                ++ (if !iosFiles.isEmpty then [] else ["iOS (*.iOS.csproj)"])
            if missing.isEmpty then "" else
              "Не найдены платформы:\n  • " ++ joinBullets missing ++ "\n\n")
        ++ (if r.2.1.isEmpty then "" else
              "Ошибки:\n  • " ++ joinBullets r.2.2 ++ "\n\n")
        ++ xamarinTagsHint)

/- ### Concrete Xamarin sample files -/

/-- An Android platform descriptor carrying both Android version tags. -/
def androidTree (ver code : String) : XTree :=
  XTree.node "Project" (some "\n  ") none
    (.cons (XTree.node "PropertyGroup" (some "\n    ") (some "\n")
      (.cons (XTree.node "ApplicationVersion" (some ver) (some "\n    ") .nil)
        (.cons (XTree.node "AndroidVersionCode" (some code) (some "\n  ") .nil) .nil)))
      .nil)

def androidRaw (ver code : String) : String :=
  "<Project>\n  <PropertyGroup>\n    <ApplicationVersion>" ++ ver
    ++ "</ApplicationVersion>\n    <AndroidVersionCode>" ++ code
    ++ "</AndroidVersionCode>\n  </PropertyGroup>\n</Project>"

/-- An iOS platform descriptor carrying the three iOS version tags. -/
def iosTree (ver : String) : XTree :=
  XTree.node "Project" (some "\n  ") none
    (.cons (XTree.node "PropertyGroup" (some "\n    ") (some "\n")
      (.cons (XTree.node "ApplicationVersion" (some ver) (some "\n    ") .nil)
        (.cons (XTree.node "CFBundleVersion" (some ver) (some "\n    ") .nil)
          (.cons (XTree.node "CFBundleShortVersionString" (some ver) (some "\n  ") .nil)
            .nil))))
      .nil)

def iosRaw (ver : String) : String :=
  "<Project>\n  <PropertyGroup>\n    <ApplicationVersion>" ++ ver
    ++ "</ApplicationVersion>\n    <CFBundleVersion>" ++ ver
    ++ "</CFBundleVersion>\n    <CFBundleShortVersionString>" ++ ver
    ++ "</CFBundleShortVersionString>\n  </PropertyGroup>\n</Project>"

def androidOnlyFile : XamarinFile :=
  ⟨"MyApp.Android.csproj", some (androidTree "1.0.0" "10000"), androidRaw "1.0.0" "10000"⟩

def iosSampleFile : XamarinFile :=
  ⟨"MyApp.iOS.csproj", some (iosTree "1.0.0"), iosRaw "1.0.0"⟩

end EasyBuild

namespace EasyBuild

/- ### Claim C1 -/

theorem xamarinProcess_ne_nil_iff (v : String) (fs : List XamarinFile) :
    (xamarinProcess v fs).1 ≠ [] ↔
      ∃ f ∈ fs, (getPlatformType f.name).isSome = true ∧
        (xamarinUpdateFile f.name f.tree f.raw v).success = true := by
  induction fs with
  | nil => simp [xamarinProcess]
  | cons f rest ih =>
    rcases hp : getPlatformType f.name with _ | pl
    · simp only [xamarinProcess, hp]
      rw [ih]
      constructor
      · rintro ⟨g, hg, hgs⟩
        exact ⟨g, List.mem_cons_of_mem f hg, hgs⟩
      · rintro ⟨g, hg, hgs⟩
        rcases List.mem_cons.mp hg with hgf | hg
        · subst hgf
          rw [hp] at hgs
          simp at hgs
        · exact ⟨g, hg, hgs⟩
    · rcases hs : (xamarinUpdateFile f.name f.tree f.raw v).success
      · simp only [xamarinProcess, hp, hs, Bool.false_eq_true, if_false]
        rw [ih]
        constructor
        · rintro ⟨g, hg, hgs⟩
          exact ⟨g, List.mem_cons_of_mem f hg, hgs⟩
        · rintro ⟨g, hg, hgs⟩
          rcases List.mem_cons.mp hg with hgf | hg
          · subst hgf
            rw [hs] at hgs
            simp at hgs
          · exact ⟨g, hg, hgs⟩
      · simp only [xamarinProcess, hp, hs, if_pos]
        constructor
        · intro _
          exact ⟨f, List.mem_cons_self f rest, by simp [hp], hs⟩
        · intro _
          simp

/-- C1: the aggregate success flag of `XamarinVersionService.update_version`
is true iff at least one discovered platform file was updated; a working
copy with only an Android file reports success with a message carrying no
iOS reference; a working copy with zero platform files fails. -/
theorem c1_xamarin_any_success_aggregation :
    (∀ (walk : List XamarinFile) (v : String),
      (xamarinUpdateVersion walk v).1 = true ↔
        ∃ f ∈ xamarinDiscover walk, (getPlatformType f.name).isSome = true ∧
          (xamarinUpdateFile f.name f.tree f.raw v).success = true)
    ∧ (∀ (walk : List XamarinFile) (v : String), xamarinDiscover walk = [] →
        (xamarinUpdateVersion walk v).1 = false)
    ∧ ((xamarinUpdateVersion [androidOnlyFile] "1.1.0").1 = true
       ∧ strContains (xamarinUpdateVersion [androidOnlyFile] "1.1.0").2 "iOS"
          = false) := by
  refine ⟨?_, ?_, by decide, by decide⟩
  · intro walk v
    rw [← xamarinProcess_ne_nil_iff v (xamarinDiscover walk)]
    cases hfe : (xamarinDiscover walk).isEmpty
    · simp only [xamarinUpdateVersion, hfe, Bool.false_eq_true, if_false]
      rcases hr1 : (xamarinProcess v (xamarinDiscover walk)).1 with _ | ⟨u0, urest⟩ <;>
        rcases hr2 : (xamarinProcess v (xamarinDiscover walk)).2.1 with _ | ⟨f0, frest⟩ <;>
          simp [hr1, hr2]
    · have hnil : xamarinDiscover walk = [] := List.isEmpty_iff.mp hfe
      simp [xamarinUpdateVersion, hfe, hnil, xamarinProcess]
  · intro walk v h
    simp [xamarinUpdateVersion, h]

/-- Witness for C1's hypothesis-bearing part: an empty working copy fails. -/
theorem c1_xamarin_any_success_aggregation_witness :
    (xamarinUpdateVersion [] "1.1.0").1 = false :=
  c1_xamarin_any_success_aggregation.2.1 [] "1.1.0" rfl

/- ### Claim C2 -/

/-- C6: `get_current_version` walks the discovered platform files in
discovery order and returns the first truthy version found, so whichever
file the walk encounters first determines the result; with an Android file
at 2.0.0 and an iOS file at 1.0.0 present, the result is 2.0.0 when the
Android file comes first in walk order and 1.0.0 when the iOS file does. -/
theorem c6_xamarin_first_file_version (walk : List XamarinFile)
    (f : XamarinFile) (rest : List XamarinFile) (s : String)
    (hdisc : xamarinDiscover walk = f :: rest)
    (hver : getVersionFromCsproj f.name f.tree = some s) (hne : s ≠ "") :
    xamarinGetCurrentVersion walk = some s
    ∧ xamarinGetCurrentVersion
        [⟨"MyApp.Android.csproj", some (androidTree "2.0.0" "20000"), ""⟩,
         ⟨"MyApp.iOS.csproj", some (iosTree "1.0.0"), ""⟩] = some "2.0.0"
    ∧ xamarinGetCurrentVersion
        [⟨"MyApp.iOS.csproj", some (iosTree "1.0.0"), ""⟩,
         ⟨"MyApp.Android.csproj", some (androidTree "2.0.0" "20000"), ""⟩]
      = some "1.0.0" := by
  refine ⟨?_, by decide, by decide⟩
  have hneb : (s == "") = false := beq_eq_false_iff_ne.mpr hne
  rw [xamarinGetCurrentVersion, hdisc]
  simp [firstTruthyVersion, hver, hneb]

/-- Witness for C6 at the concrete two-file working copy. -/
theorem c6_xamarin_first_file_version_witness :
    xamarinGetCurrentVersion
      [⟨"MyApp.Android.csproj", some (androidTree "2.0.0" "20000"), ""⟩,
       ⟨"MyApp.iOS.csproj", some (iosTree "1.0.0"), ""⟩] = some "2.0.0" :=
  (c6_xamarin_first_file_version
    [⟨"MyApp.Android.csproj", some (androidTree "2.0.0" "20000"), ""⟩,
     ⟨"MyApp.iOS.csproj", some (iosTree "1.0.0"), ""⟩]
    ⟨"MyApp.Android.csproj", some (androidTree "2.0.0" "20000"), ""⟩
    [⟨"MyApp.iOS.csproj", some (iosTree "1.0.0"), ""⟩]
    "2.0.0" rfl (by decide) (by decide)).1

end EasyBuild

namespace EasyBuild

/- ### PrepareReleaseCallbackCommand.prepare_release
   (commands/implementations/prepare_release_callback.py, lines 168-305) -/

/-- One external command the pipeline runs: the git subprocesses, the
version-service call, and the best-effort log. -/
inductive GitStep where
  | clone
  | checkoutDev
  | pullDev
  | checkoutRelease
  | pullRelease
  | merge
  | updateVersion
  | addAll
  | commit
  | push
  | log
deriving DecidableEq

/-- How one `subprocess.run` git invocation ends: a zero exit, a non-zero
exit, or a `subprocess.TimeoutExpired` raised before it returns. -/
inductive StepOutcome where
  | ok
  | fail
  | timeout
deriving DecidableEq

/-- The project fields the stage messages embed. -/
structure ProjectModel where
  devBranch : String
  releaseBranch : String
  name : String

/-- What one run observes from the outside world: whether the working copy
already exists, each git command's outcome (zero exit, non-zero exit, or
timeout), the detail each error message embeds (modelling `result.stderr
if result.stderr else "Неизвестная ошибка"`), the version service's
outcome and message, and the `git log` output of the final best-effort
step (whose own failures and timeouts the inner `except` swallows, so a
single flag covers them). -/
structure PipelineEnv where
  repoExists : Bool
  clone : StepOutcome
  checkoutDev : StepOutcome
  pullDev : StepOutcome
  checkoutRelease : StepOutcome
  pullRelease : StepOutcome
  merge : StepOutcome
  updateOk : Bool
  updateMsg : String
  addAll : StepOutcome
  commit : StepOutcome
  push : StepOutcome
  logOk : Bool
  logOut : String
  stderrOf : GitStep → String

/-- The error-message shape every failing git stage produces. -/
def stageErr (intro detail : String) : String :=
  intro ++ ":\n```\n" ++ detail ++ "\n```"

/-- The message of the `except subprocess.TimeoutExpired` handler (lines
298-301): it names no stage. -/
def timeoutMsg : String := "❌ Превышено время ожидания операции"

/-- `prepare_release(project, new_version, ...)` (called without a saved
`current_version`, as `execute` does on a fresh context): the ten
sequential steps.  The result carries the returned `(success, message)`
and the trace of external commands actually run, in order.  A non-zero
exit of a mandatory git step returns that stage's message; a
`TimeoutExpired` raised by any git step of steps 1-9 — including the
otherwise non-critical release-branch pull of step 5, whose exit code is
never checked — propagates to the `except` handler and returns the
generic timeout message.  Every abort path returns immediately, runs no
further command and no compensating command (there is no rollback
anywhere), and step 10 never fails: its inner `except Exception: pass`
also swallows its own timeout. -/
def prepare_release (p : ProjectModel) (env : PipelineEnv) (v : String) :
    Bool × String × List GitStep :=
  let t1 := if env.repoExists then [] else [GitStep.clone]
  match (if env.repoExists then StepOutcome.ok else env.clone) with
  | .timeout => (false, timeoutMsg, t1)
  | .fail =>
    (false, stageErr "❌ Ошибка клонирования репозитория" (env.stderrOf .clone), t1)
  | .ok =>
    let t2 := t1 ++ [GitStep.checkoutDev]
    match env.checkoutDev with
    | .timeout => (false, timeoutMsg, t2)
    | .fail =>
      (false, stageErr ("❌ Не удалось переключиться на ветку " ++ p.devBranch)
        (env.stderrOf .checkoutDev), t2)
    | .ok =>
      let t3 := t2 ++ [GitStep.pullDev]
      match env.pullDev with
      | .timeout => (false, timeoutMsg, t3)
      | .fail =>
        (false, stageErr "❌ Не удалось обновить ветку разработки"
          (env.stderrOf .pullDev), t3)
      | .ok =>
        let t4 := t3 ++ [GitStep.checkoutRelease]
        match env.checkoutRelease with
        | .timeout => (false, timeoutMsg, t4)
        | .fail =>
          (false, stageErr ("❌ Не удалось переключиться на ветку " ++ p.releaseBranch)
            (env.stderrOf .checkoutRelease), t4)
        | .ok =>
          let t5 := t4 ++ [GitStep.pullRelease]
          match env.pullRelease with
          | .timeout => (false, timeoutMsg, t5)
          | _ =>
            let t6 := t5 ++ [GitStep.merge]
            match env.merge with
            | .timeout => (false, timeoutMsg, t6)
            | .fail =>
              (false, stageErr "❌ Ошибка при мердже веток" (env.stderrOf .merge), t6)
            | .ok =>
              let t7 := t6 ++ [GitStep.updateVersion]
              if !env.updateOk then
                (false, env.updateMsg, t7)
              else
                let t8 := t7 ++ [GitStep.addAll]
                match env.addAll with
                | .timeout => (false, timeoutMsg, t8)
                | .fail =>
                  (false, stageErr "❌ Ошибка при добавлении файлов"
                    (env.stderrOf .addAll), t8)
                | .ok =>
                  let t9 := t8 ++ [GitStep.commit]
                  match env.commit with
                  | .timeout => (false, timeoutMsg, t9)
                  | .fail =>
                    (false, stageErr "❌ Ошибка при создании коммита"
                      (env.stderrOf .commit), t9)
                  | .ok =>
                    let t10 := t9 ++ [GitStep.push]
                    match env.push with
                    | .timeout => (false, timeoutMsg, t10)
                    | .fail =>
                      (false, stageErr "❌ Ошибка при отправке изменений в репозиторий"
                        (env.stderrOf .push), t10)
                    | .ok =>
                      let t11 := t10 ++ [GitStep.log]
                      (true,
                        "✅ **Релиз успешно подготовлен!**\n\n📦 Проект: **" ++ p.name
                          ++ "**\n🏷 Версия: **" ++ v ++ "**"
                          ++ (if env.logOk && !(env.logOut == "") then
                               "\n\n📜 **Последние коммиты:**\n```\n" ++ env.logOut
                                 ++ "\n```"
                             else "")
                          ++ "\n\nСборка начнется автоматически в репозитории (GitHub Actions).",
                        t11)

/-- A concrete environment in which every stage before the merge succeeds
and the merge exits non-zero. -/
def mergeFailEnv : PipelineEnv :=
  { repoExists := true, clone := StepOutcome.ok, checkoutDev := StepOutcome.ok
    pullDev := StepOutcome.ok, checkoutRelease := StepOutcome.ok
    pullRelease := StepOutcome.ok, merge := StepOutcome.fail
    updateOk := true, updateMsg := "", addAll := StepOutcome.ok
    commit := StepOutcome.ok, push := StepOutcome.ok
    logOk := true, logOut := "", stderrOf := fun _ => "CONFLICT" }

/-- The same environment with the merge succeeding but the dev checkout
exiting non-zero. -/
def checkoutFailEnv : PipelineEnv :=
  { mergeFailEnv with merge := StepOutcome.ok, checkoutDev := StepOutcome.fail }

/-- The same environment with the merge timing out instead of exiting
non-zero. -/
def mergeTimeoutEnv : PipelineEnv :=
  { mergeFailEnv with merge := StepOutcome.timeout }

def sampleProjectModel : ProjectModel :=
  { devBranch := "dev", releaseBranch := "release", name := "app" }

/- ### Claim C8 -/

/-- C8 counterexample: the claim promises that any failure in stages 1-9
returns "a message naming the failed stage", but a `TimeoutExpired` is
also a failure of the stage that raised it, and it is answered by the
generic handler message "Превышено время ожидания операции", which names
no stage: with every step before the merge succeeding and the merge
timing out, the pipeline aborts after the same five commands with the
generic message — which mentions neither the merge nor any other stage
and differs from the merge stage's error shape. -/
theorem c8_pipeline_abort_counterexample :
    prepare_release sampleProjectModel mergeTimeoutEnv "1.0.1"
      = (false, timeoutMsg,
         [GitStep.checkoutDev, GitStep.pullDev, GitStep.checkoutRelease,
          GitStep.pullRelease, GitStep.merge])
    ∧ strContains timeoutMsg "мердж" = false
    ∧ strContains timeoutMsg "Merge" = false
    ∧ timeoutMsg ≠ stageErr "❌ Ошибка при мердже веток"
        (mergeTimeoutEnv.stderrOf GitStep.merge) := by
  refine ⟨rfl, by decide, by decide, by decide⟩

/-- C8 (amended): the pipeline never executes a stage after a failed
mandatory stage, and performs no rollback.  A merge failure by non-zero
exit (after a working copy exists and the dev checkout, dev pull and
release checkout succeeded, the release pull not timing out) returns
immediately: the flag is false, the message is the merge stage's, and the
trace is exactly the five commands already run — the release-branch
pull's effects stay in place and no version update, commit or push
appears after it (no rollback command exists at all).  A merge timeout
aborts with the same five-command trace but the generic timeout message,
which names no stage; a timeout of the otherwise non-critical
release-branch pull also aborts, with a four-command trace.  The same
immediate-abort shape holds for every other mandatory stage among steps
1-9. -/
theorem c8_pipeline_abort_no_rollback_amended (p : ProjectModel) (env : PipelineEnv)
    (v : String)
    (hrepo : env.repoExists = true) (hcd : env.checkoutDev = StepOutcome.ok)
    (hpd : env.pullDev = StepOutcome.ok) (hcr : env.checkoutRelease = StepOutcome.ok)
    (hpr : env.pullRelease ≠ StepOutcome.timeout)
    (hm : env.merge = StepOutcome.fail) :
    prepare_release p env v
      = (false, stageErr "❌ Ошибка при мердже веток" (env.stderrOf .merge),
         [GitStep.checkoutDev, GitStep.pullDev, GitStep.checkoutRelease,
          GitStep.pullRelease, GitStep.merge])
    ∧ GitStep.pullRelease ∈ (prepare_release p env v).2.2
    ∧ GitStep.updateVersion ∉ (prepare_release p env v).2.2
    ∧ GitStep.commit ∉ (prepare_release p env v).2.2
    ∧ GitStep.push ∉ (prepare_release p env v).2.2
    ∧ (∀ env' : PipelineEnv, env'.repoExists = true →
        env'.checkoutDev = StepOutcome.ok → env'.pullDev = StepOutcome.ok →
        env'.checkoutRelease = StepOutcome.ok →
        env'.pullRelease ≠ StepOutcome.timeout → env'.merge = StepOutcome.timeout →
        prepare_release p env' v
          = (false, timeoutMsg,
            [GitStep.checkoutDev, GitStep.pullDev, GitStep.checkoutRelease,
             GitStep.pullRelease, GitStep.merge]))
    ∧ (∀ env' : PipelineEnv, env'.repoExists = true →
        env'.checkoutDev = StepOutcome.ok → env'.pullDev = StepOutcome.ok →
        env'.checkoutRelease = StepOutcome.ok →
        env'.pullRelease = StepOutcome.timeout →
        prepare_release p env' v
          = (false, timeoutMsg,
            [GitStep.checkoutDev, GitStep.pullDev, GitStep.checkoutRelease,
             GitStep.pullRelease]))
    ∧ strContains timeoutMsg "мердж" = false
    ∧ (∀ env' : PipelineEnv, env'.repoExists = false →
        env'.clone = StepOutcome.fail →
        prepare_release p env' v
          = (false, stageErr "❌ Ошибка клонирования репозитория"
              (env'.stderrOf .clone), [GitStep.clone]))
    ∧ (∀ env' : PipelineEnv, env'.repoExists = true →
        env'.checkoutDev = StepOutcome.fail →
        prepare_release p env' v
          = (false, stageErr ("❌ Не удалось переключиться на ветку " ++ p.devBranch)
              (env'.stderrOf .checkoutDev), [GitStep.checkoutDev]))
    ∧ (∀ env' : PipelineEnv, env'.repoExists = true →
        env'.checkoutDev = StepOutcome.ok → env'.pullDev = StepOutcome.fail →
        prepare_release p env' v
          = (false, stageErr "❌ Не удалось обновить ветку разработки"
              (env'.stderrOf .pullDev), [GitStep.checkoutDev, GitStep.pullDev]))
    ∧ (∀ env' : PipelineEnv, env'.repoExists = true →
        env'.checkoutDev = StepOutcome.ok → env'.pullDev = StepOutcome.ok →
        env'.checkoutRelease = StepOutcome.fail →
        prepare_release p env' v
          = (false, stageErr ("❌ Не удалось переключиться на ветку " ++ p.releaseBranch)
              (env'.stderrOf .checkoutRelease),
            [GitStep.checkoutDev, GitStep.pullDev, GitStep.checkoutRelease]))
    ∧ (∀ env' : PipelineEnv, env'.repoExists = true →
        env'.checkoutDev = StepOutcome.ok → env'.pullDev = StepOutcome.ok →
        env'.checkoutRelease = StepOutcome.ok →
        env'.pullRelease ≠ StepOutcome.timeout → env'.merge = StepOutcome.ok →
        env'.updateOk = false →
        prepare_release p env' v
          = (false, env'.updateMsg,
            [GitStep.checkoutDev, GitStep.pullDev, GitStep.checkoutRelease,
             GitStep.pullRelease, GitStep.merge, GitStep.updateVersion]))
    ∧ (∀ env' : PipelineEnv, env'.repoExists = true →
        env'.checkoutDev = StepOutcome.ok → env'.pullDev = StepOutcome.ok →
        env'.checkoutRelease = StepOutcome.ok →
        env'.pullRelease ≠ StepOutcome.timeout → env'.merge = StepOutcome.ok →
        env'.updateOk = true → env'.addAll = StepOutcome.fail →
        prepare_release p env' v
          = (false, stageErr "❌ Ошибка при добавлении файлов" (env'.stderrOf .addAll),
            [GitStep.checkoutDev, GitStep.pullDev, GitStep.checkoutRelease,
             GitStep.pullRelease, GitStep.merge, GitStep.updateVersion,
             GitStep.addAll]))
    ∧ (∀ env' : PipelineEnv, env'.repoExists = true →
        env'.checkoutDev = StepOutcome.ok → env'.pullDev = StepOutcome.ok →
        env'.checkoutRelease = StepOutcome.ok →
        env'.pullRelease ≠ StepOutcome.timeout → env'.merge = StepOutcome.ok →
        env'.updateOk = true → env'.addAll = StepOutcome.ok →
        env'.commit = StepOutcome.fail →
        prepare_release p env' v
          = (false, stageErr "❌ Ошибка при создании коммита" (env'.stderrOf .commit),
            [GitStep.checkoutDev, GitStep.pullDev, GitStep.checkoutRelease,
             GitStep.pullRelease, GitStep.merge, GitStep.updateVersion,
             GitStep.addAll, GitStep.commit]))
    ∧ (∀ env' : PipelineEnv, env'.repoExists = true →
        env'.checkoutDev = StepOutcome.ok → env'.pullDev = StepOutcome.ok →
        env'.checkoutRelease = StepOutcome.ok →
        env'.pullRelease ≠ StepOutcome.timeout → env'.merge = StepOutcome.ok →
        env'.updateOk = true → env'.addAll = StepOutcome.ok →
        env'.commit = StepOutcome.ok → env'.push = StepOutcome.fail →
        prepare_release p env' v
          = (false, stageErr "❌ Ошибка при отправке изменений в репозиторий"
              (env'.stderrOf .push),
            [GitStep.checkoutDev, GitStep.pullDev, GitStep.checkoutRelease,
             GitStep.pullRelease, GitStep.merge, GitStep.updateVersion,
             GitStep.addAll, GitStep.commit, GitStep.push])) := by
  have hmain : prepare_release p env v
      = (false, stageErr "❌ Ошибка при мердже веток" (env.stderrOf .merge),
         [GitStep.checkoutDev, GitStep.pullDev, GitStep.checkoutRelease,
          GitStep.pullRelease, GitStep.merge]) := by
    cases hpro : env.pullRelease with
    | ok => simp [prepare_release, hrepo, hcd, hpd, hcr, hpro, hm]
    | fail => simp [prepare_release, hrepo, hcd, hpd, hcr, hpro, hm]
    | timeout => exact absurd hpro hpr
  refine ⟨hmain, ?_, ?_, ?_, ?_, ?_, ?_, by decide, ?_, ?_, ?_, ?_, ?_, ?_, ?_, ?_⟩
  · rw [hmain]; simp
  · rw [hmain]; simp
  · rw [hmain]; simp
  · rw [hmain]; simp
  · intro env' h1 h2 h3 h4 h5 h6
    cases hpro : env'.pullRelease with
    | ok => simp [prepare_release, h1, h2, h3, h4, hpro, h6]
    | fail => simp [prepare_release, h1, h2, h3, h4, hpro, h6]
    | timeout => exact absurd hpro h5
  · intro env' h1 h2 h3 h4 h5
    simp [prepare_release, h1, h2, h3, h4, h5]
  · intro env' h1 h2
    simp [prepare_release, h1, h2]
  · intro env' h1 h2
    simp [prepare_release, h1, h2]
  · intro env' h1 h2 h3
    simp [prepare_release, h1, h2, h3]
  · intro env' h1 h2 h3 h4
    simp [prepare_release, h1, h2, h3, h4]
  · intro env' h1 h2 h3 h4 h5 h6 h7
    cases hpro : env'.pullRelease with
    | ok => simp [prepare_release, h1, h2, h3, h4, hpro, h6, h7]
    | fail => simp [prepare_release, h1, h2, h3, h4, hpro, h6, h7]
    | timeout => exact absurd hpro h5
  · intro env' h1 h2 h3 h4 h5 h6 h7 h8
    cases hpro : env'.pullRelease with
    | ok => simp [prepare_release, h1, h2, h3, h4, hpro, h6, h7, h8]
    | fail => simp [prepare_release, h1, h2, h3, h4, hpro, h6, h7, h8]
    | timeout => exact absurd hpro h5
  · intro env' h1 h2 h3 h4 h5 h6 h7 h8 h9
    cases hpro : env'.pullRelease with
    | ok => simp [prepare_release, h1, h2, h3, h4, hpro, h6, h7, h8, h9]
    | fail => simp [prepare_release, h1, h2, h3, h4, hpro, h6, h7, h8, h9]
    | timeout => exact absurd hpro h5
  · intro env' h1 h2 h3 h4 h5 h6 h7 h8 h9 h10
    cases hpro : env'.pullRelease with
    | ok => simp [prepare_release, h1, h2, h3, h4, hpro, h6, h7, h8, h9, h10]
    | fail => simp [prepare_release, h1, h2, h3, h4, hpro, h6, h7, h8, h9, h10]
    | timeout => exact absurd hpro h5

/-- Witness for the amended C8 at concrete environments: the failed merge
returns the merge-stage message with the five-command trace (pull of the
release branch included, nothing after the merge), and a dev-checkout
failure aborts after a single command. -/
theorem c8_pipeline_abort_no_rollback_amended_witness :
    prepare_release sampleProjectModel mergeFailEnv "1.0.1"
      = (false, stageErr "❌ Ошибка при мердже веток" "CONFLICT",
         [GitStep.checkoutDev, GitStep.pullDev, GitStep.checkoutRelease,
          GitStep.pullRelease, GitStep.merge])
    ∧ prepare_release sampleProjectModel checkoutFailEnv "1.0.1"
      = (false, stageErr "❌ Не удалось переключиться на ветку dev" "CONFLICT",
         [GitStep.checkoutDev]) := by
  have h := c8_pipeline_abort_no_rollback_amended sampleProjectModel mergeFailEnv "1.0.1"
    rfl rfl rfl rfl (by decide) rfl
  refine ⟨h.1, ?_⟩
  exact h.2.2.2.2.2.2.2.2.2.1 checkoutFailEnv rfl rfl

end EasyBuild
